import Mathlib

/-!
Verification of the Ranking-Page application: a shallow embedding of the
scoring rules, the ranking engine, the contribution write path, the
administrative member update, and the React client's pure logic
(`fetchLeaderboard` state transition, `addPoints` input validation,
`xpPercent`), together with theorems settling the specified properties.

The backend service (FastAPI) is not part of the available sources; its
operations are modelled from the specification (each such definition says
so in its doc comment).  The client logic is embedded directly from
`FrontEnd/RankingPage/src/App.jsx`.
-/

namespace RankingPage

/-! ## Scoring rules -/

/-- Modelled from the spec: the static action→points table (§4 of the spec;
the same five actions and values appear in the client's action select in
`App.jsx`).  An unknown action has no point value. -/
def actionPoints (act : String) : Option Nat :=
  if act = "attend_event" then some 10
  else if act = "volunteer_task" then some 20
  else if act = "lead_event" then some 50
  else if act = "upload_docs" then some 15
  else if act = "bring_sponsorship" then some 100
  else none

/-- Modelled from the spec: the static thresholds→level table, ascending,
with inclusive lower bounds (0 Bronze, 51 Silver, 151 Gold, 301 Platinum). -/
def levelThresholds : List (Nat × String) :=
  [(0, "Bronze"), (51, "Silver"), (151, "Gold"), (301, "Platinum")]

/-- Modelled from the spec: derive the level from a total-points value by
taking the highest threshold not exceeding it ("highest applicable wins"),
folding over the ascending static table. -/
def levelFor (total : Nat) : String :=
  levelThresholds.foldl (fun acc t => if t.1 ≤ total then t.2 else acc) "Bronze"

/-! ## Data model (Member Store and Contribution Log, §3 of the spec) -/

/-- Modelled from the spec: a Member record (identifier, display name,
cumulative total points).  `total_points` is an integer ≥ 0, hence `Nat`. -/
structure Member where
  member_id : Nat
  name : String
  total_points : Nat
deriving DecidableEq

/-- Modelled from the spec: a Contribution record (identifier, member
reference, action type, points awarded at write time, timestamp).
Timestamps are modelled as naturals (dates compare chronologically). -/
structure Contribution where
  contrib_id : Nat
  member_id : Nat
  action : String
  points : Nat
  timestamp : Nat
deriving DecidableEq

/-- Modelled from the spec: the persisted state, two collections. -/
structure Store where
  members : List Member
  contributions : List Contribution
deriving DecidableEq

def emptyStore : Store := { members := [], contributions := [] }

/-! ## Ranking engine (§4.1 of the spec) -/

/-- Modelled from the spec: membership of a timestamp in the inclusive
window `[start_date, end_date]`; a missing bound is unbounded on that side. -/
def inWindow (start_date end_date : Option Nat) (t : Nat) : Bool :=
  (match start_date with
   | none => true
   | some a => decide (a ≤ t)) &&
  (match end_date with
   | none => true
   | some b => decide (t ≤ b))

/-- Modelled from the spec: `period_points` = sum of the points of a
member's contributions whose timestamp lies in the window. -/
def periodPoints (cs : List Contribution) (mid : Nat) (s e : Option Nat) : Nat :=
  ((cs.filter (fun c => c.member_id == mid && inWindow s e c.timestamp)).map
    (fun c => c.points)).sum

/-- Modelled from the spec: a leaderboard row, carrying member id, name,
rank, period points, total points, level and badges (§4.1 Output). -/
structure Row where
  member_id : Nat
  name : String
  rank : Nat
  period_points : Nat
  total_points : Nat
  level : String
  badges : List String
deriving DecidableEq

/-- Modelled from the spec: the unranked summary row for one member
(rank is assigned later, after sorting). -/
def baseRow (cs : List Contribution) (s e : Option Nat) (m : Member) : Row :=
  { member_id := m.member_id
    name := m.name
    rank := 0
    period_points := periodPoints cs m.member_id s e
    total_points := m.total_points
    level := levelFor m.total_points
    badges := [levelFor m.total_points ++ " Member"] }

/-- Modelled from the spec: the sort key as a boolean "less or equal":
`period_points` descending, then `total_points` descending, then
`member_id` ascending (§4.1 step 5). -/
def rowLE (a b : Row) : Bool :=
  decide (b.period_points < a.period_points) ||
    (a.period_points == b.period_points &&
      (decide (b.total_points < a.total_points) ||
        (a.total_points == b.total_points && decide (a.member_id ≤ b.member_id))))

/-- Modelled from the spec: assign 1-based sequential ranks in order
(§4.1 step 6), starting from a given index. -/
def assignRanksFrom : Nat → List Row → List Row
  | _, [] => []
  | i, r :: rs => { r with rank := i } :: assignRanksFrom (i + 1) rs

/-- Modelled from the spec: build, sort and rank all rows for a window. -/
def rankRows (st : Store) (s e : Option Nat) : List Row :=
  assignRanksFrom 1 ((st.members.map (baseRow st.contributions s e)).mergeSort rowLE)

/-- Modelled from the spec: the error taxonomy of the API operations
(§7 of the spec). -/
inductive ApiError
  | invalidRange
  | invalidAction
  | invalidPoints
  | notFound
deriving DecidableEq

/-- Modelled from the spec: the leaderboard read.  If both bounds are given
and `start_date > end_date` it fails with `InvalidRange`; otherwise it
returns the ranked rows (§4.1). -/
def leaderboard (st : Store) (s e : Option Nat) : Except ApiError (List Row) :=
  match s, e with
  | some a, some b =>
    if b < a then .error .invalidRange else .ok (rankRows st (some a) (some b))
  | _, _ => .ok (rankRows st s e)

/-- Modelled from the spec: the leaderboard endpoint as a state-passing
operation; it is purely a read (§4.1 "Side effects: none"), so the store
passes through unchanged. -/
def leaderboardOp (st : Store) (s e : Option Nat) :
    Except ApiError (List Row) × Store :=
  (leaderboard st s e, st)

/-! ## Contribution write path (§4.2 of the spec) -/

/-- Modelled from the spec: look a member up by display name (the write
endpoint receives a free-text name). -/
def findMemberByName (ms : List Member) (nm : String) : Option Member :=
  ms.find? (fun m => m.name == nm)

/-- Modelled from the spec: a fresh member identifier, larger than every
identifier in use. -/
def freshMemberId (ms : List Member) : Nat :=
  (ms.map (fun m => m.member_id)).foldr max 0 + 1

/-- Modelled from the spec: a fresh contribution identifier. -/
def freshContribId (cs : List Contribution) : Nat :=
  (cs.map (fun c => c.contrib_id)).foldr max 0 + 1

/-- Modelled from the spec: record a contribution (§4.2).  An unknown
action fails with `InvalidAction`.  If the named member does not exist it
is created with `total_points = 0` first, then the contribution is
appended and the member's total is incremented by the action's table
value. -/
def addContribution (st : Store) (nm : String) (act : String) (now : Nat) :
    Except ApiError Store :=
  match actionPoints act with
  | none => .error .invalidAction
  | some pts =>
    match findMemberByName st.members nm with
    | some m =>
      .ok { members := st.members.map (fun x =>
              if x.member_id == m.member_id then
                { x with total_points := x.total_points + pts }
              else x)
            contributions := st.contributions ++
              [{ contrib_id := freshContribId st.contributions
                 member_id := m.member_id
                 action := act
                 points := pts
                 timestamp := now }] }
    | none =>
      let mid := freshMemberId st.members
      .ok { members := st.members ++
              [{ member_id := mid, name := nm, total_points := 0 + pts }]
            contributions := st.contributions ++
              [{ contrib_id := freshContribId st.contributions
                 member_id := mid
                 action := act
                 points := pts
                 timestamp := now }] }

/-- Sum of the points of all Contribution records of one member. -/
def contribSum (cs : List Contribution) (mid : Nat) : Nat :=
  ((cs.filter (fun c => c.member_id == mid)).map (fun c => c.points)).sum

/-- The Contribution-sum invariant of §3: every member's stored total
equals the sum of that member's Contribution points. -/
def consistentStore (st : Store) : Prop :=
  ∀ m ∈ st.members, m.total_points = contribSum st.contributions m.member_id

/-- Every contribution references an existing member (no orphans; holds on
every state reachable by contribution writes alone). -/
def noOrphans (st : Store) : Prop :=
  ∀ c ∈ st.contributions, ∃ m ∈ st.members, m.member_id = c.member_id

def wfStore (st : Store) : Prop := consistentStore st ∧ noOrphans st

/-- A sequence of contribution writes, each `(name, action, timestamp)`,
applied in order; the first failure aborts the sequence. -/
def runContributionWrites : Store → List (String × String × Nat) → Except ApiError Store
  | st, [] => .ok st
  | st, w :: ws =>
    match addContribution st w.1 w.2.1 w.2.2 with
    | .error e => .error e
    | .ok st1 => runContributionWrites st1 ws

/-! ## Administrative member update (§4.3 of the spec) -/

/-- Modelled from the spec: administrative point overwrite (§4.3 Update).
The request body is modelled as `Option Int`: `none` is a non-numeric
input (`parseInt` produced no number), which fails with `InvalidPoints`,
as does a negative value.  Otherwise the member's `total_points` is set
exactly to the given value; an unknown member fails with `NotFound`. -/
def updatePoints (st : Store) (mid : Nat) (body : Option Int) :
    Except ApiError Store :=
  match body with
  | none => .error .invalidPoints
  | some v =>
    if v < 0 then .error .invalidPoints
    else if st.members.any (fun m => m.member_id == mid) then
      .ok { members := st.members.map (fun m =>
              if m.member_id == mid then { m with total_points := v.toNat }
              else m)
            contributions := st.contributions }
    else .error .notFound

/-! ## Client logic, embedded from `FrontEnd/RankingPage/src/App.jsx` -/

/-- A leaderboard entry as the client's error paths construct it:
`{ name, total_points, level, badges }`. -/
structure LBEntry where
  name : String
  total_points : Nat
  level : String
  badges : List String
deriving DecidableEq

/-- The client's `leaderboard` state: `{ leaderboard: [...] }`. -/
structure LBState where
  leaderboard : List LBEntry
deriving DecidableEq

/-- The three ways the axios GET in `fetchLeaderboard` can come back:
a success payload (possibly null `data`), a non-success status, or a
thrown error (network/server failure). -/
inductive FetchOutcome
  | success (d : Option LBState)
  | failure (msg : String)
  | networkError
deriving DecidableEq

/-- Observable client effects (alert dialogs and console logging). -/
inductive ClientEffect
  | consoleError
  | alertMsg (msg : String)
deriving DecidableEq

/-- The state transition of `fetchLeaderboard` in `App.jsx` (lines 33-45):
on success, set the leaderboard to the payload (or an empty default);
on a non-success status, replace it with a single "Error" row; on a
thrown error, log to the console and replace it with a single
"Server Error" row.  The previous state is never consulted. -/
def fetchLeaderboardUpdate (_prev : LBState) (r : FetchOutcome) :
    LBState × List ClientEffect :=
  match r with
  | .success d => (d.getD { leaderboard := [] }, [])
  | .failure _ =>
    ({ leaderboard := [{ name := "Error", total_points := 0,
                         level := "N/A", badges := [] }] }, [])
  | .networkError =>
    ({ leaderboard := [{ name := "Server Error", total_points := 0,
                         level := "N/A", badges := [] }] },
     [.consoleError])

/-- JavaScript's `%` (remainder) on integers: truncated remainder, the
sign follows the dividend.  This is exactly `Int.tmod`. -/
def jsRem (a b : Int) : Int := Int.tmod a b

/-- JavaScript's `Math.round` on an exact rational: `⌊x + 1/2⌋`
(round half toward positive infinity). -/
def jsRound (q : ℚ) : Int := ⌊q + 1 / 2⌋

/-- The `xpPercent` function of `App.jsx` (lines 116-120), embedded over
the integers with exact rational division (the `Math.round` absorbs any
float rounding for integer inputs, so the exact model agrees with the
float evaluation there).  `points || 0` is the identity on integer
inputs, and in the exact model `pct` is always finite, so the final
`Number.isFinite` guard returns `pct` itself. -/
def xpPercent (points : Int) : Int :=
  let maxForBar : Int := max 100 points
  let pct : Int :=
    min 100 (jsRound (((jsRem points maxForBar : Int) : ℚ) / ((maxForBar : Int) : ℚ) * 100))
  pct

/-- The whitespace characters removed by JavaScript's `String.trim`
(restricted to the ASCII range; Unicode space separators are not
modelled). -/
def isJsSpace (c : Char) : Bool :=
  c == ' ' || c == '\t' || c == '\n' || c == '\r' || c == '\x0b' || c == '\x0c'

/-- Trimming on the character list: drop leading whitespace, then drop
trailing whitespace (via reverse). -/
def jsTrimList (l : List Char) : List Char :=
  ((l.dropWhile isJsSpace).reverse.dropWhile isJsSpace).reverse

/-- JavaScript's `name.trim()`. -/
def jsTrim (s : String) : String := String.mk (jsTrimList s.data)

/-- What the client's `addPoints` does with its inputs: either an alert,
or a POST of a `{name, action}` body. -/
inductive ClientReq
  | alertMsg (msg : String)
  | postPoints (name : String) (action : String)
deriving DecidableEq

/-- The input handling of `addPoints` in `App.jsx` (lines 47-64): when
`name.trim()` is falsy (the empty string) it alerts and sends nothing;
otherwise it POSTs `{ name: name.trim(), action }`. -/
def addPointsClient (nameInput : String) (act : String) : ClientReq :=
  if jsTrim nameInput = "" then .alertMsg ("Please enter a name.")
  else .postPoints (jsTrim nameInput) act

/-! ## Concrete stores used by witnesses -/

/-- A small concrete store: two members tied on points, one contribution. -/
def stW : Store :=
  { members := [{ member_id := 1, name := "Alice", total_points := 120 },
                { member_id := 2, name := "Bob", total_points := 120 }]
    contributions := [{ contrib_id := 1, member_id := 1,
                        action := "attend_event", points := 10, timestamp := 5 }] }

/-- A concrete sequence of contribution writes. -/
def wsW : List (String × String × Nat) :=
  [("Alice", "attend_event", 1), ("Alice", "lead_event", 2)]

/-- The store produced by running `wsW` from the empty store. -/
def stC4 : Store :=
  { members := [{ member_id := 1, name := "Alice", total_points := 60 }]
    contributions := [{ contrib_id := 1, member_id := 1,
                        action := "attend_event", points := 10, timestamp := 1 },
                      { contrib_id := 2, member_id := 1,
                        action := "lead_event", points := 50, timestamp := 2 }] }

/-! ## Level thresholds (claim C3) -/

/-- The threshold fold is the expected if-chain over the four bands. -/
theorem levelFor_eq (p : Nat) :
    levelFor p =
      if 301 ≤ p then "Platinum"
      else if 151 ≤ p then "Gold"
      else if 51 ≤ p then "Silver"
      else "Bronze" := by
  simp [levelFor, levelThresholds, Nat.zero_le]

/-- C3: the level derived from `total_points` is a total function of the
fixed thresholds with inclusive lower bounds, highest applicable wins:
0-50 Bronze, 51-150 Silver, 151-300 Gold, above 300 Platinum; in
particular 151 is Gold, 300 is still Gold and 301 is Platinum. -/
theorem C3_level_thresholds :
    levelFor 151 = "Gold" ∧ levelFor 300 = "Gold" ∧ levelFor 301 = "Platinum" ∧
    ∀ p : Nat,
      (p ≤ 50 → levelFor p = "Bronze") ∧
      (51 ≤ p → p ≤ 150 → levelFor p = "Silver") ∧
      (151 ≤ p → p ≤ 300 → levelFor p = "Gold") ∧
      (301 ≤ p → levelFor p = "Platinum") := by
  refine ⟨by decide, by decide, by decide, fun p => ⟨?_, ?_, ?_, ?_⟩⟩
  · intro h
    rw [levelFor_eq, if_neg (by omega), if_neg (by omega), if_neg (by omega)]
  · intro h1 h2
    rw [levelFor_eq, if_neg (by omega), if_neg (by omega), if_pos (by omega)]
  · intro h1 h2
    rw [levelFor_eq, if_neg (by omega), if_pos (by omega)]
  · intro h
    rw [levelFor_eq, if_pos (by omega)]

/-- Witness for C3 at `total_points = 100`. -/
theorem C3_witness :
    (51 : Nat) ≤ 100 ∧ (100 : Nat) ≤ 150 ∧ levelFor 100 = "Silver" :=
  ⟨by decide, by decide,
    (C3_level_thresholds.2.2.2 100).2.1 (by decide) (by decide)⟩

/-! ## Invalid date range (claim C5) -/

/-- C5: a leaderboard request whose start date is after its end date fails
with `InvalidRange`, and the Member and Contribution stores are unchanged
by the failed request. -/
theorem C5_invalid_range (st : Store) (a b : Nat) (h : b < a) :
    leaderboardOp st (some a) (some b) = (.error .invalidRange, st) := by
  simp [leaderboardOp, leaderboard, h]

/-- Witness for C5 with the range 5..3 on the empty store. -/
theorem C5_witness :
    leaderboardOp emptyStore (some 5) (some 3) =
      (.error .invalidRange, emptyStore) :=
  C5_invalid_range emptyStore 5 3 (by decide)

/-! ## First-contribution-creates-member and the action table (claim C6) -/

/-- C6: submitting `lead_event` for an unknown member name creates that
member and leaves it with `total_points = 50` and level Bronze (it starts
from 0 and is incremented by the action value); each action awards exactly
its fixed table value. -/
theorem C6_first_contribution (st : Store) (nm : String) (now : Nat)
    (h : findMemberByName st.members nm = none) :
    (∃ st', addContribution st nm ("lead_event") now = .ok st' ∧
      ∃ m ∈ st'.members,
        m.name = nm ∧ m.total_points = 50 ∧ levelFor m.total_points = "Bronze") ∧
    actionPoints ("attend_event") = some 10 ∧
    actionPoints ("volunteer_task") = some 20 ∧
    actionPoints ("lead_event") = some 50 ∧
    actionPoints ("upload_docs") = some 15 ∧
    actionPoints ("bring_sponsorship") = some 100 ∧
    ∀ act pts, actionPoints act = some pts →
      ∃ st', addContribution st nm act now = .ok st' ∧
        ∃ m ∈ st'.members, m.name = nm ∧ m.total_points = pts := by
  have hgen : ∀ act pts, actionPoints act = some pts →
      ∃ st', addContribution st nm act now = .ok st' ∧
        ∃ m ∈ st'.members, m.name = nm ∧ m.total_points = pts := by
    intro act pts hap
    have heq : addContribution st nm act now =
        .ok { members := st.members ++
                [{ member_id := freshMemberId st.members, name := nm,
                   total_points := 0 + pts }]
              contributions := st.contributions ++
                [{ contrib_id := freshContribId st.contributions
                   member_id := freshMemberId st.members
                   action := act
                   points := pts
                   timestamp := now }] } := by
      simp only [addContribution, hap, h]
    refine ⟨_, heq, ⟨{ member_id := freshMemberId st.members, name := nm,
                       total_points := 0 + pts }, ?_, rfl, Nat.zero_add pts⟩⟩
    simp
  refine ⟨?_, by decide, by decide, by decide, by decide, by decide, hgen⟩
  obtain ⟨st', hst', m, hm, hname, htot⟩ := hgen ("lead_event") 50 (by decide)
  exact ⟨st', hst', m, hm, hname, htot, by rw [htot]; decide⟩

/-- Witness for C6: a `lead_event` contribution for the unknown name
Zoe on the empty store. -/
theorem C6_witness :
    ∃ st', addContribution emptyStore ("Zoe") ("lead_event") 0 = .ok st' ∧
      ∃ m ∈ st'.members,
        m.name = "Zoe" ∧ m.total_points = 50 ∧ levelFor m.total_points = "Bronze" :=
  (C6_first_contribution emptyStore ("Zoe") 0 rfl).1

/-! ## Administrative point overwrite (claim C7) -/

/-- C7: the administrative update with a non-negative integer `p` sets
the member's `total_points` to exactly `p` (not an increment), leaves all
other members and the whole Contribution log unchanged regardless of
contribution history; a negative or non-numeric input fails with
`InvalidPoints`. -/
theorem C7_admin_overwrite (st : Store) (mid : Nat) (p : Nat)
    (h : st.members.any (fun m => m.member_id == mid) = true) :
    (∃ st', updatePoints st mid (some ((p : Nat) : Int)) = .ok st' ∧
      st'.contributions = st.contributions ∧
      ∀ m ∈ st'.members,
        (m.member_id = mid → m.total_points = p) ∧
        (m.member_id ≠ mid → m ∈ st.members)) ∧
    (∀ v : Int, v < 0 → updatePoints st mid (some v) = .error .invalidPoints) ∧
    updatePoints st mid none = .error .invalidPoints := by
  refine ⟨?_, ?_, rfl⟩
  · have heq : updatePoints st mid (some ((p : Nat) : Int)) =
        .ok { members := st.members.map (fun m =>
                if m.member_id == mid then
                  { m with total_points := ((p : Nat) : Int).toNat }
                else m)
              contributions := st.contributions } := by
      simp only [updatePoints]
      rw [if_neg (by omega), if_pos h]
    refine ⟨_, heq, rfl, ?_⟩
    intro m hm
    rcases List.mem_map.mp hm with ⟨x, hx, rfl⟩
    by_cases hid : x.member_id = mid
    · rw [if_pos (by simpa using hid)]
      exact ⟨fun _ => by simp, fun hne => absurd hid hne⟩
    · rw [if_neg (by simpa using hid)]
      exact ⟨fun heq => absurd heq hid, fun _ => hx⟩
  · intro v hv
    simp only [updatePoints]
    rw [if_pos hv]

/-- Witness for C7: overwrite member 1 of the concrete store to 0. -/
theorem C7_witness :
    ∃ st', updatePoints stW 1 (some ((0 : Nat) : Int)) = .ok st' ∧
      st'.contributions = stW.contributions ∧
      ∀ m ∈ st'.members,
        (m.member_id = 1 → m.total_points = 0) ∧
        (m.member_id ≠ 1 → m ∈ stW.members) :=
  (C7_admin_overwrite stW 1 0 (by decide)).1

/-! ## Client behaviour on a failed leaderboard fetch (claim C8) -/

/-- A concrete previously-displayed client state. -/
def prevStateW : LBState :=
  { leaderboard := [{ name := "Alice", total_points := 10,
                      level := "Bronze", badges := ["Bronze Member"] }] }

/-- C8 counterexample: on a thrown fetch error the client does NOT leave
its previously displayed leaderboard intact (the state changes), and the
effect list is exactly a console log - no alert is shown. -/
theorem C8_counterexample :
    (fetchLeaderboardUpdate prevStateW .networkError).1 ≠ prevStateW ∧
    (fetchLeaderboardUpdate prevStateW .networkError).2 = [.consoleError] := by
  decide

/-- C8 (amended): when a leaderboard fetch fails with a server error, the
client logs the error to the console (it shows no alert) and replaces the
displayed leaderboard - discarding the prior state - with a single
placeholder row named Server Error with zero points, level N/A and no
badges. -/
theorem C8_fetch_error_replaces_state (prev : LBState) :
    fetchLeaderboardUpdate prev .networkError =
      ({ leaderboard := [{ name := "Server Error", total_points := 0,
                           level := "N/A", badges := [] }] },
       [.consoleError]) := rfl

/-! ## The XP bar function (claim C9) -/

/-- Evaluation rule for `jsRound` via the floor characterization. -/
theorem jsRound_eval {q : ℚ} {z : Int} (h1 : (z : ℚ) ≤ q + 1 / 2)
    (h2 : q + 1 / 2 < z + 1) : jsRound q = z := by
  rw [jsRound, Int.floor_eq_iff]
  exact ⟨h1, h2⟩

/-- C9 counterexample: `xpPercent` is not bounded into `[0, 100]` for
every numeric input; at `-50` it returns `-50`. -/
theorem C9_counterexample :
    xpPercent (-50) = -50 ∧ ¬(0 ≤ xpPercent (-50)) := by
  have hmax : max (100 : Int) (-50) = 100 := by decide
  have hrem : jsRem (-50) 100 = -50 := by decide
  have h : xpPercent (-50) = -50 := by
    show min 100 (jsRound (((jsRem (-50) (max 100 (-50)) : Int) : ℚ) /
      ((max (100 : Int) (-50) : Int) : ℚ) * 100)) = -50
    rw [hmax, hrem]
    have hdiv : ((-50 : Int) : ℚ) / ((100 : Int) : ℚ) * 100 = (-50 : ℚ) := by
      norm_num
    rw [hdiv, jsRound_eval (z := -50) (by norm_num) (by norm_num)]
    decide
  exact ⟨h, by rw [h]; decide⟩

/-- C9 (amended): for every non-negative integer `p`, `xpPercent p` is in
`[0, 100]`; it equals `p` for `0 ≤ p < 100` and equals `0` for every
`p ≥ 100` (since `p mod max(100, p) = 0` there), so members with 100 or
more points always render an empty XP bar. -/
theorem C9_xpPercent_bounds (p : Int) (hp : 0 ≤ p) :
    0 ≤ xpPercent p ∧ xpPercent p ≤ 100 ∧
    (p < 100 → xpPercent p = p) ∧ (100 ≤ p → xpPercent p = 0) := by
  by_cases h100 : 100 ≤ p
  · have hmax : max (100 : Int) p = p := max_eq_right h100
    have hx : xpPercent p = 0 := by
      show min 100 (jsRound (((jsRem p (max 100 p) : Int) : ℚ) /
        ((max (100 : Int) p : Int) : ℚ) * 100)) = 0
      rw [hmax]
      rw [show jsRem p p = 0 from Int.tmod_self]
      have hdiv : ((0 : Int) : ℚ) / ((p : Int) : ℚ) * 100 = (0 : ℚ) := by
        simp
      rw [hdiv, jsRound_eval (z := 0) (by norm_num) (by norm_num)]
      decide
    rw [hx]
    exact ⟨le_refl 0, by decide, fun hlt => absurd hlt (by omega), fun _ => rfl⟩
  · have hlt : p < 100 := by omega
    have hmax : max (100 : Int) p = 100 := max_eq_left (by omega)
    have hrem : jsRem p 100 = p := by
      rw [jsRem, Int.tmod_eq_emod hp (by norm_num), Int.emod_eq_of_lt hp hlt]
    have hx : xpPercent p = p := by
      show min 100 (jsRound (((jsRem p (max 100 p) : Int) : ℚ) /
        ((max (100 : Int) p : Int) : ℚ) * 100)) = p
      rw [hmax, hrem]
      have hdiv : ((p : Int) : ℚ) / ((100 : Int) : ℚ) * 100 = ((p : Int) : ℚ) := by
        push_cast
        exact div_mul_cancel₀ _ (by norm_num)
      rw [hdiv, jsRound_eval (z := p) (by norm_num)
        (by rw [add_lt_add_iff_left]; norm_num)]
      exact min_eq_right (by omega)
    rw [hx]
    exact ⟨hp, by omega, fun _ => rfl, fun hge => absurd hge (by omega)⟩

/-- Witness for C9 at `p = 7`. -/
theorem C9_witness :
    (0 : Int) ≤ 7 ∧
    (0 ≤ xpPercent 7 ∧ xpPercent 7 ≤ 100 ∧
      ((7 : Int) < 100 → xpPercent 7 = 7) ∧ ((100 : Int) ≤ 7 → xpPercent 7 = 0)) :=
  ⟨by decide, C9_xpPercent_bounds 7 (by decide)⟩

/-! ## Client-side name trimming (claim C10) -/

/-- The head of a `dropWhile` result never satisfies the predicate. -/
theorem head?_dropWhile_false {α : Type _} {p : α → Bool} {l : List α} {c : α}
    (h : (l.dropWhile p).head? = some c) : p c = false := by
  have hw := List.head?_dropWhile_not p l
  rw [h] at hw
  exact hw

/-- Dropping an initial segment cannot change a present last element. -/
theorem getLast?_of_dropWhile {α : Type _} {p : α → Bool} {l : List α} {c : α}
    (h : (l.dropWhile p).getLast? = some c) : l.getLast? = some c := by
  obtain ⟨t, ht⟩ := List.dropWhile_suffix p (l := l)
  rw [← ht, List.getLast?_append, h]
  rfl

/-- The first character of a trimmed character list is not whitespace. -/
theorem head?_jsTrimList {l : List Char} {c : Char}
    (h : (jsTrimList l).head? = some c) : isJsSpace c = false := by
  rw [jsTrimList, List.head?_reverse] at h
  have h2 := getLast?_of_dropWhile h
  rw [List.getLast?_reverse] at h2
  exact head?_dropWhile_false h2

/-- The last character of a trimmed character list is not whitespace. -/
theorem getLast?_jsTrimList {l : List Char} {c : Char}
    (h : (jsTrimList l).getLast? = some c) : isJsSpace c = false := by
  rw [jsTrimList, List.getLast?_reverse] at h
  exact head?_dropWhile_false h

/-- C10: the client's `addPoints` issues a contribution POST if and only
if the entered name is non-empty after trimming; the posted name is the
trimmed name, which carries no leading or trailing whitespace, and an
empty-after-trim name produces the alert and no request. -/
theorem C10_addPoints_trimmed (nameInput act : String) :
    (addPointsClient nameInput act = .postPoints (jsTrim nameInput) act ↔
      jsTrim nameInput ≠ "") ∧
    (addPointsClient nameInput act = .alertMsg ("Please enter a name.") ↔
      jsTrim nameInput = "") ∧
    (∀ c, (jsTrim nameInput).data.head? = some c → isJsSpace c = false) ∧
    (∀ c, (jsTrim nameInput).data.getLast? = some c → isJsSpace c = false) := by
  refine ⟨?_, ?_, ?_, ?_⟩
  · by_cases h : jsTrim nameInput = "" <;> simp [addPointsClient, h]
  · by_cases h : jsTrim nameInput = "" <;> simp [addPointsClient, h]
  · intro c hc
    exact head?_jsTrimList hc
  · intro c hc
    exact getLast?_jsTrimList hc

/-- Witness for C10 on the input name with surrounding spaces. -/
theorem C10_witness :
    addPointsClient ("  Bob ") ("attend_event") =
      .postPoints ("Bob") ("attend_event") ∧
    jsTrim ("  Bob ") = "Bob" := by
  have e : jsTrim ("  Bob ") = "Bob" := by decide
  have h := (C10_addPoints_trimmed ("  Bob ") ("attend_event")).1.mpr (by decide)
  rw [e] at h
  exact ⟨h, e⟩

/-! ## Leaderboard ordering (claims C1 and C2) -/

/-- The sort key is transitive. -/
theorem rowLE_trans : ∀ a b c : Row, rowLE a b → rowLE b c → rowLE a c := by
  intro a b c hab hbc
  simp only [rowLE, Bool.or_eq_true, Bool.and_eq_true, decide_eq_true_eq,
    beq_iff_eq] at hab hbc ⊢
  omega

/-- The sort key is total. -/
theorem rowLE_total : ∀ a b : Row, rowLE a b || rowLE b a := by
  intro a b
  simp only [rowLE, Bool.or_eq_true, Bool.and_eq_true, decide_eq_true_eq,
    beq_iff_eq]
  omega

/-- Every element of `assignRanksFrom` is an element of the input with its
rank field replaced. -/
theorem mem_assignRanksFrom :
    ∀ {i : Nat} {l : List Row} {b : Row}, b ∈ assignRanksFrom i l →
      ∃ k a, a ∈ l ∧ b = { a with rank := k } := by
  intro i l
  induction l generalizing i with
  | nil =>
    intro b h
    simp [assignRanksFrom] at h
  | cons r rs ih =>
    intro b h
    rcases List.mem_cons.mp h with h | h
    · exact ⟨i, r, List.mem_cons_self r rs, h⟩
    · obtain ⟨k, a, ha, hb⟩ := ih h
      exact ⟨k, a, List.mem_cons_of_mem r ha, hb⟩

/-- Rank assignment preserves sortedness (the key ignores the rank). -/
theorem pairwise_assignRanksFrom :
    ∀ {l : List Row}, l.Pairwise (fun a b => rowLE a b = true) →
      ∀ i, (assignRanksFrom i l).Pairwise (fun a b => rowLE a b = true) := by
  intro l
  induction l with
  | nil =>
    intro _ i
    exact List.Pairwise.nil
  | cons r rs ih =>
    intro h i
    rcases List.pairwise_cons.mp h with ⟨hr, hrs⟩
    refine List.pairwise_cons.mpr ⟨?_, ih hrs (i + 1)⟩
    intro b hb
    obtain ⟨k, a, ha, rfl⟩ := mem_assignRanksFrom hb
    exact hr a ha

/-- The ranked rows of any window are sorted by the key. -/
theorem pairwise_rankRows (st : Store) (s e : Option Nat) :
    (rankRows st s e).Pairwise (fun a b => rowLE a b = true) :=
  pairwise_assignRanksFrom
    (List.sorted_mergeSort rowLE_trans rowLE_total
      (st.members.map (baseRow st.contributions s e))) 1

/-- A successful leaderboard read returns the ranked rows. -/
theorem leaderboard_ok {st : Store} {s e : Option Nat} {rows : List Row}
    (h : leaderboard st s e = .ok rows) : rows = rankRows st s e := by
  cases s with
  | none =>
    cases e with
    | none =>
      simpa [leaderboard] using h.symm
    | some b =>
      simpa [leaderboard] using h.symm
  | some a =>
    cases e with
    | none =>
      simpa [leaderboard] using h.symm
    | some b =>
      simp only [leaderboard] at h
      split at h
      · exact absurd h (by simp)
      · simpa using h.symm

/-- C1: every returned leaderboard row sequence is sorted by
`period_points` descending, ties broken by `total_points` descending,
remaining ties by member identifier ascending; the key relation is total,
so the order is fully determined. -/
theorem C1_leaderboard_sorted (st : Store) (s e : Option Nat) (rows : List Row)
    (h : leaderboard st s e = .ok rows) :
    rows.Pairwise (fun a b => rowLE a b = true) ∧
    ∀ a b : Row, rowLE a b = true ∨ rowLE b a = true := by
  constructor
  · rw [leaderboard_ok h]
    exact pairwise_rankRows st s e
  · intro a b
    have := rowLE_total a b
    rw [Bool.or_eq_true] at this
    exact this

/-- Witness for C1 on the concrete store with an unbounded window. -/
theorem C1_witness :
    (rankRows stW none none).Pairwise (fun a b => rowLE a b = true) ∧
    ∀ a b : Row, rowLE a b = true ∨ rowLE b a = true :=
  C1_leaderboard_sorted stW none none (rankRows stW none none) rfl

/-- Rank assignment does not change the number of rows. -/
theorem length_assignRanksFrom :
    ∀ (i : Nat) (l : List Row), (assignRanksFrom i l).length = l.length := by
  intro i l
  induction l generalizing i with
  | nil => rfl
  | cons r rs ih =>
    simp [assignRanksFrom, ih]

/-- The ranks assigned from `i` are the consecutive run `i, i+1, ...`. -/
theorem map_rank_assignRanksFrom :
    ∀ (i : Nat) (l : List Row),
      (assignRanksFrom i l).map (fun r => r.rank) = List.range' i l.length := by
  intro i l
  induction l generalizing i with
  | nil => rfl
  | cons r rs ih =>
    simp [assignRanksFrom, List.range'_succ, ih]

/-- C2: the rank fields of a returned leaderboard are exactly the
contiguous sequence `1..N` in order (the i-th row, 1-based, has rank i). -/
theorem C2_ranks_contiguous (st : Store) (s e : Option Nat) (rows : List Row)
    (h : leaderboard st s e = .ok rows) :
    rows.map (fun r => r.rank) = List.range' 1 rows.length := by
  rw [leaderboard_ok h, rankRows, map_rank_assignRanksFrom,
    length_assignRanksFrom]

/-- Witness for C2 on the concrete store with an unbounded window. -/
theorem C2_witness :
    (rankRows stW none none).map (fun r => r.rank) =
      List.range' 1 (rankRows stW none none).length :=
  C2_ranks_contiguous stW none none (rankRows stW none none) rfl

/-! ## The Contribution-sum invariant (claim C4) -/

/-- Splitting a contribution sum over an appended record. -/
theorem contribSum_append (cs : List Contribution) (c : Contribution) (mid : Nat) :
    contribSum (cs ++ [c]) mid =
      contribSum cs mid + (if c.member_id = mid then c.points else 0) := by
  by_cases h : c.member_id = mid
  · simp [contribSum, List.filter_append, h]
  · simp [contribSum, List.filter_append, h]

/-- Every list element is bounded by the running maximum. -/
theorem le_foldr_max : ∀ {l : List Nat} {a : Nat}, a ∈ l → a ≤ l.foldr max 0 := by
  intro l
  induction l with
  | nil =>
    intro a h
    cases h
  | cons x xs ih =>
    intro a h
    rcases List.mem_cons.mp h with rfl | h
    · exact le_max_left a (xs.foldr max 0)
    · exact le_trans (ih h) (le_max_right x (xs.foldr max 0))

/-- The fresh member identifier exceeds every identifier in use. -/
theorem freshMemberId_gt {ms : List Member} {m : Member} (h : m ∈ ms) :
    m.member_id < freshMemberId ms := by
  have h2 : m.member_id ≤ (ms.map (fun x => x.member_id)).foldr max 0 :=
    le_foldr_max (List.mem_map_of_mem _ h)
  simp only [freshMemberId]
  omega

/-- A member nobody contributed to has contribution sum zero. -/
theorem contribSum_eq_zero {cs : List Contribution} {mid : Nat}
    (h : ∀ c ∈ cs, c.member_id ≠ mid) : contribSum cs mid = 0 := by
  have hf : cs.filter (fun c => c.member_id == mid) = [] :=
    List.filter_eq_nil_iff.mpr (fun c hc => by simpa using h c hc)
  simp [contribSum, hf]

/-- One contribution write preserves well-formedness: the updated member's
total tracks the appended record, all other members and sums are
untouched, and a created member starts from a contribution-free id. -/
theorem addContribution_wf {st : Store} {nm act : String} {now : Nat} {st' : Store}
    (hwf : wfStore st) (h : addContribution st nm act now = .ok st') :
    wfStore st' := by
  obtain ⟨hcons, horph⟩ := hwf
  rcases hap : actionPoints act with _ | pts
  · simp [addContribution, hap] at h
  · rcases hfind : findMemberByName st.members nm with _ | m
    · -- creation branch
      simp only [addContribution, hap, hfind] at h
      rw [Except.ok.injEq] at h
      subst h
      constructor
      · intro y hy
        rcases List.mem_append.mp hy with hy | hy
        · have hlt := freshMemberId_gt hy
          have hx' := hcons y hy
          rw [contribSum_append]
          rw [if_neg (by intro heq; simp at heq; omega)]
          simpa using hx'
        · simp only [List.mem_singleton] at hy
          subst hy
          rw [contribSum_append, if_pos rfl]
          have hz : contribSum st.contributions (freshMemberId st.members) = 0 := by
            apply contribSum_eq_zero
            intro c' hc' heq
            obtain ⟨m2, hm2, hid2⟩ := horph c' hc'
            have := freshMemberId_gt hm2
            omega
          simp [hz]
      · intro c' hc'
        rcases List.mem_append.mp hc' with hc' | hc'
        · obtain ⟨m2, hm2, hid2⟩ := horph c' hc'
          exact ⟨m2, List.mem_append_left _ hm2, hid2⟩
        · simp only [List.mem_singleton] at hc'
          subst hc'
          exact ⟨{ member_id := freshMemberId st.members, name := nm,
                   total_points := 0 + pts },
                 List.mem_append_right _ (List.mem_singleton.mpr rfl), rfl⟩
    · -- increment branch
      simp only [addContribution, hap, hfind] at h
      rw [Except.ok.injEq] at h
      subst h
      constructor
      · intro y hy
        rcases List.mem_map.mp hy with ⟨x, hx, rfl⟩
        have hx' := hcons x hx
        by_cases hid : x.member_id = m.member_id
        · rw [if_pos (by simpa using hid)]
          rw [contribSum_append]
          simp only [hid] at hx' ⊢
          simp only [if_true]
          omega
        · rw [if_neg (by simpa using hid)]
          rw [contribSum_append]
          rw [if_neg (by intro heq; simp at heq; exact hid heq.symm)]
          simpa using hx'
      · intro c' hc'
        rcases List.mem_append.mp hc' with hc' | hc'
        · obtain ⟨m2, hm2, hid2⟩ := horph c' hc'
          refine ⟨if m2.member_id == m.member_id then
                    { m2 with total_points := m2.total_points + pts }
                  else m2, ?_, ?_⟩
          · exact List.mem_map_of_mem _ hm2
          · by_cases hb : m2.member_id = m.member_id
            · rw [if_pos (by simpa using hb)]
              exact hid2
            · rw [if_neg (by simpa using hb)]
              exact hid2
        · simp only [List.mem_singleton] at hc'
          subst hc'
          have hmem : m ∈ st.members :=
            List.mem_of_find?_eq_some (by simpa [findMemberByName] using hfind)
          refine ⟨if m.member_id == m.member_id then
                    { m with total_points := m.total_points + pts }
                  else m, List.mem_map_of_mem _ hmem, ?_⟩
          rw [if_pos (by simp)]

/-- Any sequence of contribution writes preserves well-formedness. -/
theorem runContributionWrites_wf :
    ∀ (ws : List (String × String × Nat)) (st st' : Store),
      wfStore st → runContributionWrites st ws = .ok st' → wfStore st' := by
  intro ws
  induction ws with
  | nil =>
    intro st st' hwf h
    simp only [runContributionWrites] at h
    rw [Except.ok.injEq] at h
    exact h ▸ hwf
  | cons w ws ih =>
    intro st st' hwf h
    simp only [runContributionWrites] at h
    rcases hstep : addContribution st w.1 w.2.1 w.2.2 with e | st1
    · rw [hstep] at h
      simp at h
    · rw [hstep] at h
      simp only [] at h
      exact ih st1 st' (addContribution_wf hwf hstep) h

/-- C4: starting from an empty store, after any sequence of contribution
writes (no administrative overwrite), every member's `total_points`
equals the sum of the points of all of that member's Contribution
records. -/
theorem C4_total_points_invariant (ws : List (String × String × Nat))
    (st' : Store) (h : runContributionWrites emptyStore ws = .ok st') :
    ∀ m ∈ st'.members, m.total_points = contribSum st'.contributions m.member_id :=
  (runContributionWrites_wf ws emptyStore st'
    ⟨fun m hm => absurd hm (by simp [emptyStore]),
     fun c hc => absurd hc (by simp [emptyStore])⟩ h).1

/-- Witness for C4: two writes to Alice leave total 60 = 10 + 50. -/
theorem C4_witness :
    ({ member_id := 1, name := "Alice", total_points := 60 } : Member).total_points =
      contribSum stC4.contributions
        ({ member_id := 1, name := "Alice", total_points := 60 } : Member).member_id :=
  C4_total_points_invariant wsW stC4 rfl
    { member_id := 1, name := "Alice", total_points := 60 } (by simp [stC4])

end RankingPage
